import Mathlib

/-!
Verification of the live-transcription broadcast hub (`src/server.js`) and the
client-side transcript reconciler (`src/unnamed/part_000`, the SSE `onmessage`
handler) against the repository's specification.

The JavaScript is shallowly embedded: the mutable `sseClients` array and the
per-connection keepalive interval become explicit state, `res.write` calls are
recorded as a list of `(client id, payload)` pairs, and a write that throws is
modelled by a per-client behaviour flag, since `Array.prototype.forEach` in
`broadcast` wraps the writes in no try/catch.
-/

namespace Server

/-- Transcript events forwarded by the server (`server.js` builds the objects
`\x7btype: 'partial', text\x7d` and `\x7btype: 'final', text\x7d` in the
`transcript.partial` / `transcript.final` handlers). Lean reserves the word
naming the first variant, so the constructors carry an `Ev` suffix. -/
inductive TranscriptEvent where
  | partialEv (text : String)
  | finalEv (text : String)
deriving DecidableEq, Repr

/-- String escaping as `JSON.stringify` performs it on the `text` field for
the characters that matter here (quote, backslash and the common control
characters; other code points are emitted unchanged). -/
def jsonEscape (s : String) : String :=
  s.foldl (fun acc c =>
    acc ++ (match c with
      | '"' => "\\\""
      | '\\' => "\\\\"
      | '\n' => "\\n"
      | '\r' => "\\r"
      | '\t' => "\\t"
      | c => String.singleton c)) ""

/-- `JSON.stringify` of the broadcast payload object, field order as the
object literals in `server.js` write it. -/
def stringify : TranscriptEvent → String
  | .partialEv t => "\x7b\"type\":\"partial\",\"text\":\"" ++ jsonEscape t ++ "\"\x7d"
  | .finalEv t => "\x7b\"type\":\"final\",\"text\":\"" ++ jsonEscape t ++ "\"\x7d"

/-- The SSE frame `broadcast` builds once before its loop:
`const formatted = dataColon JSON.stringify(data) \n\n`. -/
def sseFrame (e : TranscriptEvent) : String :=
  "data: " ++ stringify e ++ "\n\n"

/-- What one `res.write` call does for a given client: Node's `res.write`
normally returns (possibly `false` under backpressure) without raising, which
is `ok` here; `throws` models a write that raises synchronously. -/
inductive WriteBehaviour where
  | ok
  | throws
deriving DecidableEq, Repr

/-- One SSE client response object (`res`). JavaScript object identity (the
`!==` test in the close handler) is modelled by the `id` field, which the
connection handler allocates uniquely. -/
structure Res where
  id : Nat
  wb : WriteBehaviour
deriving DecidableEq, Repr

/-- The server's mutable state: the `sseClients` array, the set of scheduled
keepalive interval ids, and the allocation counters for fresh client and
timer identities. -/
structure ServerState where
  sseClients : List Res
  timers : List Nat
  nextRes : Nat
  nextTimer : Nat
deriving DecidableEq, Repr

/-- The server state before any client connects. -/
def initialServer : ServerState :=
  { sseClients := [], timers := [], nextRes := 0, nextTimer := 0 }

/-- The `sseClients.forEach((res) => res.write(formatted))` loop: returns the
writes performed in order and whether an exception escaped the loop. A client
whose write throws stops the iteration (forEach installs no handler), so no
later client is written. -/
def broadcastLoop (clients : List Res) (payload : String) :
    List (Nat × String) × Bool :=
  match clients with
  | [] => ([], false)
  | r :: rest =>
    match r.wb with
    | .throws => ([], true)
    | .ok =>
      let p := broadcastLoop rest payload
      ((r.id, payload) :: p.1, p.2)

/-- `broadcast(data)` from `server.js`: serialise once into `formatted`, then
write that one string to each registered client. It only reads `sseClients`,
so the state comes back unchanged; the first component carries the observable
effects (writes performed, and whether a write exception propagated to the
caller). -/
def broadcast (s : ServerState) (e : TranscriptEvent) :
    (List (Nat × String) × Bool) × ServerState :=
  (broadcastLoop s.sseClients (sseFrame e), s)

/-- A connection as the `/events` handler closes over it: its response object
and the keepalive interval id stored in `keepAlive`. -/
structure Conn where
  res : Res
  timerId : Nat
deriving DecidableEq, Repr

/-- The `/events` request handler: write the `: connected` comment, schedule
the keepalive interval, and push the response onto `sseClients`. The write
behaviour of the new client is a parameter of the model. -/
def connect (s : ServerState) (wb : WriteBehaviour) : ServerState × Conn :=
  let r : Res := { id := s.nextRes, wb := wb }
  let t := s.nextTimer
  ({ sseClients := s.sseClients ++ [r],
     timers := s.timers ++ [t],
     nextRes := s.nextRes + 1,
     nextTimer := s.nextTimer + 1 },
   { res := r, timerId := t })

/-- The filter in the close handler,
`sseClients.filter((client) => client !== res)`, with object identity as the
`id` field. -/
def removeClient (clients : List Res) (r : Res) : List Res :=
  clients.filter (fun client => client.id ≠ r.id)

/-- The `req.on('close')` handler: `clearInterval(keepAlive)` removes this
connection's timer from the scheduled set, and the filter reassigns
`sseClients` to a copy without this connection's response object. -/
def onClose (s : ServerState) (c : Conn) : ServerState :=
  { s with timers := s.timers.filter (fun t => t ≠ c.timerId),
           sseClients := removeClient s.sseClients c.res }

/-- N clients connecting in sequence from the initial state; `wbf n` is the
write behaviour of the n-th client. Returns the final state and the
connections in connection order. -/
def connectN : Nat → (Nat → WriteBehaviour) → ServerState × List Conn
  | 0, _ => (initialServer, [])
  | n + 1, wbf =>
    let p := connectN n wbf
    let q := connect p.1 (wbf n)
    (q.1, p.2 ++ [q.2])

/-- Broadcast's loop with close handlers interleaved, modelling the JavaScript
heap fact that `sseClients.forEach` iterates the array object referenced when
`broadcast` was entered, while each close handler rebinds the `sseClients`
variable to a fresh filtered copy: `snapshot` is the array `forEach` holds,
`registry` the current value of the variable, and `closes i` gives the ids of
clients whose close handlers run after the i-th write. Returns the writes
performed, whether a write exception escaped, and the final registry. -/
def broadcastOverSnapshot (snapshot : List Res) (payload : String)
    (closes : Nat → List Nat) (registry : List Res) (i : Nat) :
    List (Nat × String) × Bool × List Res :=
  match snapshot with
  | [] => ([], false, registry)
  | r :: rest =>
    match r.wb with
    | .throws => ([], true, registry)
    | .ok =>
      let reg := registry.filter (fun c => ¬ c.id ∈ closes i)
      let p := broadcastOverSnapshot rest payload closes reg (i + 1)
      ((r.id, payload) :: p.1, p.2)

/-- The console message of the early return in `startStreaming` when the
credential is absent. -/
def missingKeyMsg : String :=
  "ASSEMBLYAI_API_KEY is not defined. Please set it in the environment."

/-- The console message logged by the `app.listen` callback when the
`startStreaming()` promise rejects at runtime. -/
def runtimeErrorMsg : String := "Error starting streaming:"

/-- How an invocation of `startStreaming` ends, as observable in the logs:
the early `return` after `console.error(missingKeyMsg)`, a normally started
pipeline, or a rejected promise caught by `app.listen`'s `.catch`. -/
inductive StreamOutcome where
  | refusedMissingKey (msg : String)
  | started
  | runtimeError (msg : String)
deriving DecidableEq, Repr

/-- `startStreaming` from `server.js`: `apiKey` is
`process.env.ASSEMBLYAI_API_KEY` (`none` when unset; JavaScript's `!apiKey`
is also true for the empty string), and `connectOk` tells whether
`realtime.connect()` resolves. -/
def startStreaming (apiKey : Option String) (connectOk : Bool) : StreamOutcome :=
  if apiKey = none ∨ apiKey = some "" then
    .refusedMissingKey missingKeyMsg
  else if connectOk then
    .started
  else
    .runtimeError runtimeErrorMsg

/-- The transcript events the pipeline forwards to `broadcast`, given the
events the transcription service would emit: none unless the pipeline
actually started (the `transcript.partial` / `transcript.final` handlers are
only installed, and the connection only opened, past the credential check). -/
def forwardedEvents (o : StreamOutcome) (serviceEvents : List TranscriptEvent) :
    List TranscriptEvent :=
  match o with
  | .started => serviceEvents
  | _ => []

/-- The whole process as `app.listen`'s callback leaves it: the Express app
serving `/events` (the hub, in its initial state) next to the outcome of
`startStreaming`, which touches no hub state. -/
structure AppProcess where
  server : ServerState
  streaming : StreamOutcome
deriving DecidableEq, Repr

/-- Process launch: the server starts listening, then `startStreaming` runs
(its rejection, if any, is caught and logged by the callback). -/
def launch (apiKey : Option String) (connectOk : Bool) : AppProcess :=
  { server := initialServer, streaming := startStreaming apiKey connectOk }

/-- A client whose writes succeed, for concrete witnesses. -/
def okClient (n : Nat) : Res := { id := n, wb := .ok }

/-- A client whose write raises, for concrete counterexamples. -/
def throwingClient (n : Nat) : Res := { id := n, wb := .throws }

/-- A registry of two healthy clients. -/
def demoState : ServerState :=
  { sseClients := [okClient 0, okClient 1], timers := [], nextRes := 2, nextTimer := 0 }

/-- A registry whose first client's write throws and whose second is healthy. -/
def throwFirstState : ServerState :=
  { sseClients := [throwingClient 0, okClient 1], timers := [], nextRes := 2, nextTimer := 0 }

end Server

namespace Client

/-- A received SSE message payload, classified by what `JSON.parse` makes of
it: `valid ty text` is a payload that parses to an object whose `type` field
is `ty` (`none` when the field is absent) and whose `text` field is `text`;
`invalid` is a payload on which `JSON.parse` throws. -/
inductive Payload where
  | valid (ty : Option String) (text : String)
  | invalid
deriving DecidableEq, Repr

/-- A DOM element in the transcripts container: its identity (JavaScript
object identity, allocated uniquely by `document.createElement` in the
model), its CSS class and its text content. -/
structure DomElem where
  id : Nat
  cls : String
  text : String
deriving DecidableEq, Repr

/-- The reconciler's state: the allocation counter for element identities,
the children of `transcriptsEl` in DOM order, and the `partialEl` variable
(`none` mirrors `partialEl = null`, `some pid` a reference to the element
with identity `pid`). -/
structure ClientState where
  nextId : Nat
  transcripts : List DomElem
  partialEl : Option Nat
deriving DecidableEq, Repr

/-- The state when the page loads: empty container, `partialEl = null`. -/
def initClient : ClientState :=
  { nextId := 0, transcripts := [], partialEl := none }

/-- The `evtSource.onmessage` handler: parse the payload, then dispatch on
`data.type`. The whole body sits in a try/catch whose catch logs
`console.error('Failed to parse SSE data', e)`, so the handler never throws;
the returned Bool reports whether that `console.error` ran. A payload whose
`type` is neither `'partial'` nor `'final'` matches no branch and falls
through silently. -/
def onmessage (s : ClientState) (p : Payload) : ClientState × Bool :=
  match p with
  | .invalid => (s, true)
  | .valid ty text =>
    if ty = some "partial" then
      match s.partialEl with
      | some pid =>
        let updated := s.transcripts.map
          (fun el => if el.id = pid then { el with text := text } else el)
        ({ s with transcripts := updated }, false)
      | none =>
        ({ nextId := s.nextId + 1,
           transcripts := s.transcripts ++ [{ id := s.nextId, cls := "partial", text := text }],
           partialEl := some s.nextId },
         false)
    else if ty = some "final" then
      let appended : ClientState :=
        { s with nextId := s.nextId + 1,
                 transcripts := s.transcripts ++ [{ id := s.nextId, cls := "final", text := text }] }
      match s.partialEl with
      | some pid =>
        ({ appended with
            transcripts := appended.transcripts.filter (fun el => el.id ≠ pid),
            partialEl := none },
         false)
      | none => (appended, false)
    else (s, false)

/-- A session: the handler applied to each message in arrival order. -/
def runClient (s : ClientState) (ps : List Payload) : ClientState :=
  ps.foldl (fun st p => (onmessage st p).1) s

end Client

namespace Server

/-- When every client's write succeeds, the loop writes the payload to each
client in registration order and no exception escapes. -/
theorem broadcastLoop_all_ok (clients : List Res) (payload : String)
    (h : ∀ r ∈ clients, r.wb = WriteBehaviour.ok) :
    broadcastLoop clients payload = (clients.map (fun r => (r.id, payload)), false) := by
  induction clients with
  | nil => rfl
  | cons r rest ih =>
    have hr : r.wb = WriteBehaviour.ok := h r (List.mem_cons_self r rest)
    have hrest : ∀ x ∈ rest, x.wb = WriteBehaviour.ok :=
      fun x hx => h x (List.mem_cons_of_mem _ hx)
    simp [broadcastLoop, hr, ih hrest]

/-- When one client's write throws, the loop stops there: the clients before
it were written, those after were not, and the exception escapes. -/
theorem broadcastLoop_throw (pre post : List Res) (r : Res) (payload : String)
    (hpre : ∀ x ∈ pre, x.wb = WriteBehaviour.ok)
    (hr : r.wb = WriteBehaviour.throws) :
    broadcastLoop (pre ++ r :: post) payload =
      (pre.map (fun x => (x.id, payload)), true) := by
  induction pre with
  | nil => simp [broadcastLoop, hr]
  | cons a rest ih =>
    have ha : a.wb = WriteBehaviour.ok := hpre a (List.mem_cons_self a rest)
    have hrest : ∀ x ∈ rest, x.wb = WriteBehaviour.ok :=
      fun x hx => hpre x (List.mem_cons_of_mem _ hx)
    simp [broadcastLoop, ha, ih hrest]

/-- C10: broadcast never modifies the subscriber registry — for every event
and every registry state, after `broadcast` returns, the server state (the
`sseClients` array and the timers) is exactly what it was when `broadcast`
was called, whatever the clients' write behaviours. -/
theorem broadcast_preserves_registry (s : ServerState) (e : TranscriptEvent) :
    (broadcast s e).2 = s := rfl

/-- C6: broadcast serialises the event once into a single SSE frame and, when
no write throws, writes exactly that frame to every registered subscriber in
order, so all subscribers receive byte-identical payloads. -/
theorem broadcast_byte_identical (s : ServerState) (e : TranscriptEvent)
    (h : ∀ r ∈ s.sseClients, r.wb = WriteBehaviour.ok) :
    (broadcast s e).1.1 = s.sseClients.map (fun r => (r.id, sseFrame e)) ∧
    (broadcast s e).1.2 = false ∧
    ∀ w ∈ (broadcast s e).1.1, w.2 = sseFrame e := by
  have hl := broadcastLoop_all_ok s.sseClients (sseFrame e) h
  refine ⟨?_, ?_, ?_⟩
  · show (broadcastLoop s.sseClients (sseFrame e)).1 = _
    rw [hl]
  · show (broadcastLoop s.sseClients (sseFrame e)).2 = false
    rw [hl]
  · intro w hw
    have : w ∈ s.sseClients.map (fun r => (r.id, sseFrame e)) := by
      have : (broadcast s e).1.1 = s.sseClients.map (fun r => (r.id, sseFrame e)) := by
        show (broadcastLoop s.sseClients (sseFrame e)).1 = _
        rw [hl]
      rwa [this] at hw
    obtain ⟨r, _, hr⟩ := List.mem_map.1 this
    exact hr ▸ rfl

/-- C6 witness: two healthy clients both receive the one serialised frame. -/
theorem broadcast_byte_identical_witness :
    (broadcast demoState (.finalEv "ok")).1.1 =
      demoState.sseClients.map (fun r => (r.id, sseFrame (.finalEv "ok"))) :=
  (broadcast_byte_identical demoState (.finalEv "ok") (by decide)).1

/-- C1 counterexample: with client 0 whose write throws registered ahead of
healthy client 1, `broadcast` lets the exception escape to its caller,
delivers nothing to client 1, and removes nobody: the registry still holds
the failing client. This refutes the claim that a write exception is
isolated, the remaining subscribers still served, and the failing subscriber
unregistered. -/
theorem broadcast_write_throw_counterexample :
    (broadcast throwFirstState (.partialEv "x")).1.2 = true ∧
    (broadcast throwFirstState (.partialEv "x")).1.1 = [] ∧
    (broadcast throwFirstState (.partialEv "x")).2.sseClients =
      [throwingClient 0, okClient 1] := by
  exact ⟨rfl, rfl, rfl⟩

/-- C1 amended: a write that throws during broadcast propagates to the
caller; the subscribers before the throwing one in registration order have
already been written, those after it receive nothing, and the registry is
left exactly as it was — the failing subscriber is not removed (removal
happens only in the connection's close handler). -/
theorem broadcast_write_throw_behaviour (pre post : List Res) (r : Res)
    (e : TranscriptEvent) (ts : List Nat) (nr nt : Nat)
    (hpre : ∀ x ∈ pre, x.wb = WriteBehaviour.ok)
    (hr : r.wb = WriteBehaviour.throws) :
    (broadcast ⟨pre ++ r :: post, ts, nr, nt⟩ e).1.2 = true ∧
    (broadcast ⟨pre ++ r :: post, ts, nr, nt⟩ e).1.1 =
      pre.map (fun x => (x.id, sseFrame e)) ∧
    (broadcast ⟨pre ++ r :: post, ts, nr, nt⟩ e).2 = ⟨pre ++ r :: post, ts, nr, nt⟩ := by
  have hl := broadcastLoop_throw pre post r (sseFrame e) hpre hr
  exact ⟨by show (broadcastLoop _ _).2 = true; rw [hl],
         by show (broadcastLoop _ _).1 = _; rw [hl],
         rfl⟩

/-- C1 amended witness: concrete three-client registry whose middle client
throws — the first is written, the exception escapes, the state is kept. -/
theorem broadcast_write_throw_behaviour_witness :
    (broadcast ⟨[okClient 0] ++ throwingClient 1 :: [okClient 2], [], 3, 0⟩
        (.partialEv "x")).1.2 = true :=
  (broadcast_write_throw_behaviour [okClient 0] [okClient 2] (throwingClient 1)
    (.partialEv "x") [] 3 0 (by decide) (by decide)).1

/-- The snapshot loop, when no write throws, writes to every snapshot member
in order whatever the close interleaving does to the registry variable. -/
theorem broadcastOverSnapshot_all_ok (snapshot : List Res) (payload : String)
    (closes : Nat → List Nat) :
    ∀ (registry : List Res) (i : Nat),
      (∀ r ∈ snapshot, r.wb = WriteBehaviour.ok) →
      (broadcastOverSnapshot snapshot payload closes registry i).1 =
        snapshot.map (fun r => (r.id, payload)) ∧
      (broadcastOverSnapshot snapshot payload closes registry i).2.1 = false := by
  induction snapshot with
  | nil => exact fun registry i _ => ⟨rfl, rfl⟩
  | cons r rest ih =>
    intro registry i h
    obtain ⟨rid, rwb⟩ := r
    have hr : rwb = WriteBehaviour.ok := h ⟨rid, rwb⟩ (List.mem_cons_self _ _)
    subst hr
    have hrest : ∀ x ∈ rest, x.wb = WriteBehaviour.ok :=
      fun x hx => h x (List.mem_cons_of_mem _ hx)
    have hih := ih (registry.filter (fun c => ¬ c.id ∈ closes i)) (i + 1) hrest
    refine ⟨?_, ?_⟩
    · show (rid, payload) :: (broadcastOverSnapshot rest payload closes
        (registry.filter (fun c => ¬ c.id ∈ closes i)) (i + 1)).1 = _
      rw [hih.1, List.map_cons]
    · show (broadcastOverSnapshot rest payload closes
        (registry.filter (fun c => ¬ c.id ∈ closes i)) (i + 1)).2.1 = false
      exact hih.2

/-- C4: a broadcast over zero subscribers performs no write and raises no
error, and the loop delivers to exactly the snapshot `forEach` holds when the
iteration begins: close handlers rebinding the registry mid-iteration never
disturb delivery to the remaining snapshot members. -/
theorem broadcast_snapshot_semantics :
    (∀ (ts : List Nat) (nr nt : Nat) (e : TranscriptEvent),
      (broadcast ⟨[], ts, nr, nt⟩ e).1 = ([], false)) ∧
    (∀ (snapshot : List Res) (payload : String) (closes : Nat → List Nat)
       (registry : List Res) (i : Nat),
      (∀ r ∈ snapshot, r.wb = WriteBehaviour.ok) →
      (broadcastOverSnapshot snapshot payload closes registry i).1 =
        snapshot.map (fun r => (r.id, payload)) ∧
      (broadcastOverSnapshot snapshot payload closes registry i).2.1 = false) := by
  constructor
  · intro ts nr nt e
    rfl
  · intro snapshot payload closes registry i h
    exact broadcastOverSnapshot_all_ok snapshot payload closes registry i h

/-- C4 witness: client 1's close handler runs right after the first write,
yet both snapshot members are still written. -/
theorem broadcast_snapshot_semantics_witness :
    (broadcastOverSnapshot [okClient 0, okClient 1] "p" (fun _ => [1])
        [okClient 0, okClient 1] 0).1 =
      [okClient 0, okClient 1].map (fun r => (r.id, "p")) :=
  (broadcast_snapshot_semantics.2 [okClient 0, okClient 1] "p" (fun _ => [1])
    [okClient 0, okClient 1] 0 (by decide)).1

/-- C7: the close handler's registry update is idempotent — filtering a
client out twice gives the same registry as filtering it once, and filtering
out a client whose identity is not in the registry changes nothing (and, the
update being a total filter, no error is raised either way). -/
theorem removeClient_idempotent (cs : List Res) (r : Res) :
    removeClient (removeClient cs r) r = removeClient cs r ∧
    (r.id ∉ cs.map Res.id → removeClient cs r = cs) := by
  constructor
  · unfold removeClient
    apply List.filter_eq_self.2
    intro a ha
    exact (List.mem_filter.1 ha).2
  · intro h
    unfold removeClient
    apply List.filter_eq_self.2
    intro a ha
    have hne : a.id ≠ r.id := fun heq => h (List.mem_map.2 ⟨a, ha, heq⟩)
    simpa using hne

/-- C7 witness: removing an absent handle from a one-client registry is a
no-op. -/
theorem removeClient_idempotent_witness :
    removeClient [okClient 0] (okClient 1) = [okClient 0] :=
  (removeClient_idempotent [okClient 0] (okClient 1)).2 (by decide)

/-- After n connections the scheduled timers are exactly the allocated
interval ids 0..n-1, in order, and so are the connections' timer ids. -/
theorem connectN_range (n : Nat) (wbf : Nat → WriteBehaviour) :
    (connectN n wbf).1.timers = List.range n ∧
    (connectN n wbf).2.map Conn.timerId = List.range n ∧
    (connectN n wbf).1.nextTimer = n := by
  induction n with
  | zero => exact ⟨rfl, rfl, rfl⟩
  | succ n ih =>
    obtain ⟨h1, h2, h3⟩ := ih
    refine ⟨?_, ?_, ?_⟩
    · show (connectN n wbf).1.timers ++ [(connectN n wbf).1.nextTimer] = _
      rw [h1, h3, List.range_succ]
    · show ((connectN n wbf).2 ++ [(connect (connectN n wbf).1 (wbf n)).2]).map Conn.timerId = _
      rw [List.map_append, h2, List.range_succ]
      simp [connect, h3]
    · show (connectN n wbf).1.nextTimer + 1 = n + 1
      rw [h3]

/-- Running the close handler of every connection clears every timer whose id
one of them owns. -/
theorem foldl_onClose_clears (cs : List Conn) (s : ServerState)
    (h : ∀ t ∈ s.timers, t ∈ cs.map Conn.timerId) :
    (cs.foldl onClose s).timers = [] := by
  induction cs generalizing s with
  | nil =>
    apply List.eq_nil_iff_forall_not_mem.2
    intro t ht
    have := h t ht
    simp at this
  | cons c rest ih =>
    rw [List.foldl_cons]
    apply ih
    intro t ht
    have hmem : t ∈ s.timers ∧ t ≠ c.timerId := by
      have := List.mem_filter.1 ht
      refine ⟨this.1, by simpa using this.2⟩
    have := h t hmem.1
    simp only [List.map_cons, List.mem_cons] at this
    exact this.resolve_left hmem.2

/-- C8: after n clients connect (each scheduling one keepalive interval) and
then every connection's close handler runs, zero intervals remain scheduled;
before the closes each connection's interval is scheduled exactly once, so
each close cancels exactly its own connection's interval. -/
theorem keepalive_timers_cleared (n : Nat) (wbf : Nat → WriteBehaviour) :
    (connectN n wbf).1.timers = (connectN n wbf).2.map Conn.timerId ∧
    (∀ c ∈ (connectN n wbf).2, (connectN n wbf).1.timers.count c.timerId = 1) ∧
    ((connectN n wbf).2.foldl onClose (connectN n wbf).1).timers = [] := by
  obtain ⟨h1, h2, _⟩ := connectN_range n wbf
  refine ⟨h1.trans h2.symm, ?_, ?_⟩
  · intro c hc
    rw [h1]
    have hmem : c.timerId ∈ List.range n := by
      rw [← h2]
      exact List.mem_map.2 ⟨c, hc, rfl⟩
    exact List.count_eq_one_of_mem (List.nodup_range n) hmem
  · apply foldl_onClose_clears
    intro t ht
    rw [h1] at ht
    rw [h2]
    exact ht

/-- C9: when the credential is absent from the environment (unset, or the
empty string, both falsy to `!apiKey`), `startStreaming` refuses to start and
logs its dedicated message — an outcome distinct from every runtime
connection failure — the pipeline forwards no transcript events, and the hub
still comes up in its initial state and keeps registering subscribers. -/
theorem startStreaming_missing_key_degraded (apiKey : Option String)
    (connectOk : Bool) (h : apiKey = none ∨ apiKey = some "") :
    startStreaming apiKey connectOk = .refusedMissingKey missingKeyMsg ∧
    (∀ msg, startStreaming apiKey connectOk ≠ .runtimeError msg) ∧
    (∀ evs, forwardedEvents (startStreaming apiKey connectOk) evs = []) ∧
    (launch apiKey connectOk).server = initialServer ∧
    (∀ wb, (connect (launch apiKey connectOk).server wb).2.res ∈
      (connect (launch apiKey connectOk).server wb).1.sseClients) := by
  have hs : startStreaming apiKey connectOk = .refusedMissingKey missingKeyMsg := by
    unfold startStreaming
    rw [if_pos h]
  refine ⟨hs, ?_, ?_, rfl, ?_⟩
  · intro msg
    rw [hs]
    intro hcontra
    exact StreamOutcome.noConfusion hcontra
  · intro evs
    rw [hs]
    rfl
  · intro wb
    simp [launch, connect, initialServer]

/-- C9 witness: with the variable unset the refusal message is logged and the
first subscriber still registers. -/
theorem startStreaming_missing_key_degraded_witness :
    startStreaming none true = .refusedMissingKey missingKeyMsg :=
  (startStreaming_missing_key_degraded none true (Or.inl rfl)).1

end Server

namespace Client

/-- C2: the onmessage handler implements the four-row reconciler state
machine with `partialEl = none` as Idle and `partialEl = some pid` (with the
element `pid` displayed) as InProgress: from Idle a partial payload appends a
fresh `partial`-class element with the payload text and moves to InProgress;
from InProgress a partial payload rewrites the text of that same element (same
identity, no new element) and stays InProgress; from InProgress a final
payload appends a fresh permanent `final`-class element, removes the
in-progress element and returns to Idle; from Idle a final payload appends
the permanent element directly and stays Idle. -/
theorem reconciler_state_machine :
    (∀ (s : ClientState) (t : String), s.partialEl = none →
      (onmessage s (.valid (some "partial") t)).1 =
        ⟨s.nextId + 1, s.transcripts ++ [⟨s.nextId, "partial", t⟩], some s.nextId⟩) ∧
    (∀ (s : ClientState) (pid : Nat) (t' : String), s.partialEl = some pid →
      (onmessage s (.valid (some "partial") t')).1 =
        ⟨s.nextId,
         s.transcripts.map (fun el => if el.id = pid then { el with text := t' } else el),
         some pid⟩) ∧
    (∀ (s : ClientState) (pid : Nat) (t : String), s.partialEl = some pid →
      pid < s.nextId →
      (onmessage s (.valid (some "final") t)).1 =
        ⟨s.nextId + 1,
         s.transcripts.filter (fun el => el.id ≠ pid) ++ [⟨s.nextId, "final", t⟩],
         none⟩) ∧
    (∀ (s : ClientState) (t : String), s.partialEl = none →
      (onmessage s (.valid (some "final") t)).1 =
        ⟨s.nextId + 1, s.transcripts ++ [⟨s.nextId, "final", t⟩], none⟩) := by
  refine ⟨?_, ?_, ?_, ?_⟩
  · intro s t h
    simp [onmessage, h]
  · intro s pid t' h
    simp [onmessage, h]
  · intro s pid t h hlt
    have hne : s.nextId ≠ pid := Nat.ne_of_gt hlt
    simp [onmessage, h, List.filter_append, hne]
  · intro s t h
    simp [onmessage, h]

/-- C2 witness: the first partial from the empty page creates the in-progress
element. -/
theorem reconciler_state_machine_witness :
    (onmessage initClient (.valid (some "partial") "hel")).1 =
      ⟨1, [⟨0, "partial", "hel"⟩], some 0⟩ :=
  reconciler_state_machine.1 initClient "hel" rfl

/-- Any run of partial payloads from a one-partial-element state keeps that
single element (same identity) and leaves it holding the last partial text. -/
theorem runClient_partials (ts : List String) :
    ∀ t : String,
      runClient ⟨1, [⟨0, "partial", t⟩], some 0⟩
          (ts.map (fun u => Payload.valid (some "partial") u)) =
        ⟨1, [⟨0, "partial", ts.getLastD t⟩], some 0⟩ := by
  induction ts with
  | nil => intro t; rfl
  | cons u us ih =>
    intro t
    have e1 : runClient ⟨1, [⟨0, "partial", t⟩], some 0⟩
        ((u :: us).map (fun v => Payload.valid (some "partial") v)) =
      runClient ⟨1, [⟨0, "partial", u⟩], some 0⟩
        (us.map (fun v => Payload.valid (some "partial") v)) := rfl
    rw [e1, ih u, List.getLastD_cons]

/-- C3: from the initial Idle state, any number of partial payloads followed
by one final payload with text F ends in Idle with the container holding
exactly one element, a permanent one with text F — no in-progress element
survives. -/
theorem reconciler_final_collapse (ts : List String) (F : String) :
    ((runClient initClient (ts.map (fun u => Payload.valid (some "partial") u) ++
        [Payload.valid (some "final") F])).partialEl,
     (runClient initClient (ts.map (fun u => Payload.valid (some "partial") u) ++
        [Payload.valid (some "final") F])).transcripts.map (fun el => (el.cls, el.text))) =
    (none, [("final", F)]) := by
  cases ts with
  | nil => rfl
  | cons t ts' =>
    have e1 : runClient initClient
        ((t :: ts').map (fun u => Payload.valid (some "partial") u) ++
          [Payload.valid (some "final") F]) =
      runClient ⟨1, [⟨0, "partial", t⟩], some 0⟩
        (ts'.map (fun u => Payload.valid (some "partial") u) ++
          [Payload.valid (some "final") F]) := rfl
    have e2 : runClient ⟨1, [⟨0, "partial", t⟩], some 0⟩
        (ts'.map (fun u => Payload.valid (some "partial") u) ++
          [Payload.valid (some "final") F]) =
      runClient (runClient ⟨1, [⟨0, "partial", t⟩], some 0⟩
          (ts'.map (fun u => Payload.valid (some "partial") u)))
        [Payload.valid (some "final") F] := by
      unfold runClient
      rw [List.foldl_append]
    rw [e1, e2, runClient_partials ts' t]
    rfl

/-- C5 counterexample: the payload that parses to a JSON object with no
`type` field is malformed in the claim's sense, and the handler indeed leaves
the state untouched and throws nothing — but it logs no warning (the Bool is
false: `console.error` never ran), refuting the claim that every malformed
message produces a logged warning. -/
theorem missing_type_no_warning_counterexample :
    onmessage initClient (Payload.valid none "x") = (initClient, false) := rfl

/-- C5 amended: a malformed message never changes the reconciler state and
never throws, and the session keeps processing the following messages; a
warning is logged exactly for payloads on which `JSON.parse` throws, while a
valid-JSON payload whose `type` is missing (or not a recognised value) is
dropped silently, with no warning. -/
theorem malformed_message_safe (s : ClientState) (ty : Option String)
    (text : String) (rest : List Payload)
    (h1 : ty ≠ some "partial") (h2 : ty ≠ some "final") :
    onmessage s Payload.invalid = (s, true) ∧
    onmessage s (Payload.valid ty text) = (s, false) ∧
    runClient s (Payload.invalid :: rest) = runClient s rest ∧
    runClient s (Payload.valid ty text :: rest) = runClient s rest := by
  have hv : onmessage s (Payload.valid ty text) = (s, false) := by
    simp [onmessage, h1, h2]
  refine ⟨rfl, hv, rfl, ?_⟩
  show runClient (onmessage s (Payload.valid ty text)).1 rest = runClient s rest
  rw [hv]

/-- C5 amended witness: an unparseable message in front of a final payload
leaves the session producing exactly what the final payload alone would. -/
theorem malformed_message_safe_witness :
    runClient initClient [Payload.invalid, Payload.valid (some "final") "ok"] =
      runClient initClient [Payload.valid (some "final") "ok"] :=
  (malformed_message_safe initClient none "x" [Payload.valid (some "final") "ok"]
    (by decide) (by decide)).2.2.1

end Client
